import Mathlib

/-!
A verification development for the layer-rotation engine and gesture resolver
of a 3x3x3 rotating-cube puzzle.

The engine lives in `src/RubiksCube.js` (class `RubiksCube`), the gesture
resolver in `src/components/Cube.jsx` (handler `onMouseMove`), with an older
duplicate of the resolver in `backup/control.js`.

Embedding conventions:
* Grid positions and orientations are exact: at rest every cubie position is an
  integer triple and every cubie world rotation is a product of quarter-turn
  rotations, so the post-turn snapping (`Math.round` on positions, rounding of
  Euler angles to multiples of pi/2) is the identity in exact arithmetic.
  Positions are therefore `Int` triples and an orientation is the triple of
  images of the standard basis vectors under the accumulated rotation.
* The pivot rotation of `rotateLayer` is by the angle
  `targetRotation = (pi/2) * direction * (-1)` about the named axis
  (right-hand rule, the Three.js Euler convention).  On exact grid data the
  rotation by `k` quarter turns is the `k`-fold iterate of the right-hand-rule
  quarter rotation `rotQ`, and the pivot applies `(-direction) mod 4` of them.
  The lemmas `rotAngle_targetRotation_one` and `rotAngle_targetRotation_negOne`
  prove this correspondence against the real trigonometric rotation.
* The resolver compares cosine-similarity scores of normalized 2-D vectors
  (`Math.abs(dragVec.dot(axisVec2D))` after `normalize`).  Normalization
  introduces square roots, so the embedding carries the squares of these
  nonnegative scores (`scoreSq`): `s1 < s2`, `s > 0.5` translate to
  `s1^2 < s2^2`, `s^2 > 1/4`, which is equivalent on nonnegative reals.
  Three.js `normalize` maps the zero vector to itself, which `scoreSq`
  reflects by returning `0` when either vector is zero.  Sign tests of dot
  products with normalized vectors (`projected > 0`, `cross.dot(...) < 0`)
  are taken on the raw vectors, which has the same truth value because
  normalization scales by a positive factor and the zero vector yields a zero
  dot product on both sides.
-/

namespace Cube3D

/-- The three spatial axis names accepted by `rotateLayer`. -/
inductive Axis where
  | x
  | y
  | z
deriving DecidableEq

/-- An exact integer grid vector (a cubie position, or an orientation column). -/
structure Vec3 where
  x : ℤ
  y : ℤ
  z : ℤ
deriving DecidableEq

/-- Component of a vector along a named axis, as in `c.position[axis]`. -/
def axisComp (v : Vec3) : Axis → ℤ
  | Axis.x => v.x
  | Axis.y => v.y
  | Axis.z => v.z

/-- A cubie world orientation, recorded as the images of the three standard
basis vectors under the accumulated rotation (the columns of the rotation
matrix that the Three.js Euler `c.rotation` denotes). -/
structure Orient where
  ex : Vec3
  ey : Vec3
  ez : Vec3
deriving DecidableEq

/-- One of the 27 pieces: exact grid position plus orientation. -/
structure Cubie where
  pos : Vec3
  orient : Orient
deriving DecidableEq

/-- The engine state: the cubie list of the `RubiksCube` group plus the
`isAnimating` busy flag. -/
structure CubeState where
  cubies : List Cubie
  isAnimating : Bool
deriving DecidableEq

/-- A discrete move value (axis, layer index, direction). -/
structure Move where
  axis : Axis
  index : ℤ
  direction : ℤ
deriving DecidableEq

/-- Right-hand-rule rotation by +90 degrees about the named axis, acting on
exact grid vectors: about x it sends (x,y,z) to (x,-z,y), about y to (z,y,-x),
about z to (-y,x,z). -/
def rotQ : Axis → Vec3 → Vec3
  | Axis.x, v => ⟨v.x, -v.z, v.y⟩
  | Axis.y, v => ⟨v.z, v.y, -v.x⟩
  | Axis.z, v => ⟨-v.y, v.x, v.z⟩

/-- Action on grid vectors of the pivot rotation of `rotateLayer`: the pivot
turns by `targetRotation = (pi/2) * direction * (-1)` about `axis`
(`RubiksCube.js` line 81), i.e. by `-direction` quarter turns, which on exact
data is the `((-direction) mod 4)`-fold iterate of `rotQ`. -/
def turnMap (a : Axis) (direction : ℤ) (v : Vec3) : Vec3 :=
  (rotQ a)^[((-direction) % 4).toNat] v

/-- Effect of one completed turn on a single cubie of the active layer: the
pivot rotation is applied to its world position and composed onto its world
orientation (each orientation column is rotated). -/
def applyTurn (a : Axis) (direction : ℤ) (c : Cubie) : Cubie :=
  ⟨turnMap a direction c.pos,
   ⟨turnMap a direction c.orient.ex,
    turnMap a direction c.orient.ey,
    turnMap a direction c.orient.ez⟩⟩

/-- Per-cubie effect of a completed turn of layer `i` about axis `a`: cubies
whose grid component along `a` equals `i` (the ones `rotateLayer` filters into
the pivot) are turned, the rest are untouched. -/
def layerTurn (a : Axis) (i direction : ℤ) (c : Cubie) : Cubie :=
  if axisComp c.pos a == i then applyTurn a direction c else c

/-- Committed effect of `RubiksCube.finishRotation` (lines 112-131): the active
cubies are re-attached to the root group with their world transforms preserved,
then their positions are rounded to integers and their Euler angles to
multiples of pi/2.  In exact arithmetic the rounding is the identity, so the
net effect is `layerTurn` on each cubie of the active layer; the pivot is
destroyed and `isAnimating` is reset to `false` (line 130). -/
def finishRotation (s : CubeState) (a : Axis) (i direction : ℤ) : CubeState :=
  ⟨s.cubies.map (layerTurn a i direction), false⟩

/-- The layer selection of `rotateLayer` (line 67):
`this.cubies.filter(c => Math.round(c.position[axis]) === index)`.
Positions are exact integers at rest, so the `Math.round` is the identity. -/
def activeCubies (s : CubeState) (a : Axis) (i : ℤ) : List Cubie :=
  s.cubies.filter fun c => axisComp c.pos a == i

/-- Committed effect of `RubiksCube.rotateLayer` (lines 63-110): the state once
the call has returned and, in the animated case, its animation has completed.
If the engine is busy the call is dropped (line 64); if the layer selection is
empty the call is dropped (line 69); otherwise both the instant path and the
animated path end in `finishRotation` with the pivot at `targetRotation`. -/
def rotateLayer (s : CubeState) (a : Axis) (i direction : ℤ) : CubeState :=
  if s.isAnimating then s
  else if (activeCubies s a i).length = 0 then s
  else finishRotation s a i direction

/-- Synchronous effect of a `rotateLayer` call at the moment it returns:
the busy check (line 64) and the empty-selection check (line 69) come first for
every call; an animated call then merely sets `isAnimating := true` (line 84)
and leaves the commit to the animation callback, while an instant call commits
through `finishRotation` before returning (lines 107-108). -/
def rotateLayerStart (s : CubeState) (a : Axis) (i direction : ℤ)
    (animate : Bool) : CubeState :=
  if s.isAnimating then s
  else if (activeCubies s a i).length = 0 then s
  else if animate then ⟨s.cubies, true⟩
  else finishRotation s a i direction

/-- Apply one completed move. -/
def applyMove (s : CubeState) (m : Move) : CubeState :=
  rotateLayer s m.axis m.index m.direction

/-- Apply a finite sequence of completed moves in program order. -/
def applyMoves (s : CubeState) (ms : List Move) : CubeState :=
  ms.foldl applyMove s

/-- The grid coordinates -1, 0, 1 in the order of the constructor loops. -/
def gridVals : List ℤ := [-1, 0, 1]

/-- The 27 initial grid positions, in the nested x/y/z loop order of the
`RubiksCube` constructor (lines 21-23). -/
def allPos : List Vec3 :=
  gridVals.flatMap fun x => gridVals.flatMap fun y => gridVals.map fun z => ⟨x, y, z⟩

/-- The identity orientation of a freshly constructed, unrotated cubie. -/
def idOrient : Orient := ⟨⟨1, 0, 0⟩, ⟨0, 1, 0⟩, ⟨0, 0, 1⟩⟩

/-- The solved state built by the `RubiksCube` constructor: one cubie per grid
position, unrotated, and the engine idle. -/
def initState : CubeState :=
  ⟨allPos.map fun p => ⟨p, idOrient⟩, false⟩

/-- The list of cubie grid positions of a state. -/
def posList (s : CubeState) : List Vec3 :=
  s.cubies.map fun c => c.pos

/-! ## Gesture resolver (`src/components/Cube.jsx`, `onMouseMove`)

The resolver consumes the pick captured at `mousedown` (the touched cubie, its
world face normal, the world intersection point), the camera projection, and a
pixel drag delta per `mousemove` sample.  Its inputs are modelled exactly:
`worldNormal` (the normalized world face normal, computed identically by both
resolver copies from the pick), the projection `proj` (the `.project(camera)`
map to normalized screen coordinates, of which the code reads `.x` and `.y`),
the pick point, the touched cubie position, and the deltas `dx`, `dy`. -/

/-- An exact 2-D screen vector. -/
structure Vec2Q where
  x : ℚ
  y : ℚ
deriving DecidableEq

/-- An exact 3-D world vector. -/
structure Vec3Q where
  x : ℚ
  y : ℚ
  z : ℚ
deriving DecidableEq

/-- Componentwise vector addition (`point.clone().add(axis)`). -/
def addQ (a b : Vec3Q) : Vec3Q := ⟨a.x + b.x, a.y + b.y, a.z + b.z⟩

/-- 3-D cross product (`new THREE.Vector3().crossVectors(a, b)`). -/
def crossQ (a b : Vec3Q) : Vec3Q :=
  ⟨a.y * b.z - a.z * b.y, a.z * b.x - a.x * b.z, a.x * b.y - a.y * b.x⟩

/-- 3-D dot product. -/
def dot3 (a b : Vec3Q) : ℚ := a.x * b.x + a.y * b.y + a.z * b.z

/-- 2-D dot product. -/
def dot2 (a b : Vec2Q) : ℚ := a.x * b.x + a.y * b.y

/-- Squared length of a 2-D vector. -/
def normSq2 (a : Vec2Q) : ℚ := dot2 a a

/-- Squared length of a 3-D vector. -/
def normSq3 (a : Vec3Q) : ℚ := dot3 a a

/-- Square of the alignment score `Math.abs(dragVec.dot(axisVec2D))` computed
by the code between the normalized drag vector and a normalized candidate
screen direction.  Three.js `normalize` leaves the zero vector at zero, making
the score `0` when either vector is zero; otherwise the score is
`|a . u| / (|a| |u|)`, whose square is rational. -/
def scoreSq (a u : Vec2Q) : ℚ :=
  if normSq2 a * normSq2 u = 0 then 0
  else (dot2 a u) ^ 2 / (normSq2 a * normSq2 u)

/-- The two candidate in-plane movement axes for a face normal (lines 108-110):
x-dominant normals pair y and z, y-dominant normals pair x and z, anything else
pairs x and y; the branches are tried in that fixed order. -/
def candidateAxes (n : Vec3Q) : Vec3Q × Vec3Q :=
  if |n.x| > 9/10 then (⟨0, 1, 0⟩, ⟨0, 0, 1⟩)
  else if |n.y| > 9/10 then (⟨1, 0, 0⟩, ⟨0, 0, 1⟩)
  else (⟨1, 0, 0⟩, ⟨0, 1, 0⟩)

/-- Screen direction of a candidate axis (lines 122-126): the pick point and
the pick point offset by one unit along the axis are both projected through the
camera, and the difference of the two screen points is taken (its normalization
is absorbed into `scoreSq` and the sign tests). -/
def screenDir (proj : Vec3Q → Vec2Q) (point u : Vec3Q) : Vec2Q :=
  ⟨(proj (addQ point u)).x - (proj point).x,
   (proj (addQ point u)).y - (proj point).y⟩

/-- One step of the best-axis scan (lines 121-133): a candidate replaces the
current best exactly when its score strictly exceeds the running maximum, which
starts at 0; scores are carried as squares. -/
def scanStep (proj : Vec3Q → Vec2Q) (point : Vec3Q) (a : Vec2Q)
    (acc : Option Vec3Q × ℚ) (u : Vec3Q) : Option Vec3Q × ℚ :=
  let s := scoreSq a (screenDir proj point u)
  if s > acc.2 then (some u, s) else acc

/-- The `forEach` scan over the two candidate axes, returning the best axis and
the square of the winning score `maxDot`. -/
def bestCandidate (n : Vec3Q) (proj : Vec3Q → Vec2Q) (point : Vec3Q)
    (a : Vec2Q) : Option Vec3Q × ℚ :=
  [(candidateAxes n).1, (candidateAxes n).2].foldl (scanStep proj point a) (none, 0)

/-- Square of the winning alignment score of one drag sample. -/
def winningScoreSq (n : Vec3Q) (proj : Vec3Q → Vec2Q) (point : Vec3Q)
    (dx dy : ℚ) : ℚ :=
  (bestCandidate n proj point ⟨dx, -dy⟩).2

/-- Axis-name selection by dominant component of a normalized vector
(lines 143-145): the default is x, then two sequential `if` tests promote to y
and then to z when the corresponding normalized component exceeds 0.9 in
magnitude.  On the raw (un-normalized) vector `c` the test
`|c_i| / |c| > 9/10` is equivalent to `100 * c_i^2 > 81 * |c|^2`, and the zero
vector (which Three.js normalizes to zero) fails both tests. -/
def domAxisName (c : Vec3Q) : Axis :=
  let n1 := if 100 * c.y ^ 2 > 81 * normSq3 c then Axis.y else Axis.x
  if 100 * c.z ^ 2 > 81 * normSq3 c then Axis.z else n1

/-- The unit vector of an axis name (`standardRotAxis`, lines 160-161). -/
def unitQ : Axis → Vec3Q
  | Axis.x => ⟨1, 0, 0⟩
  | Axis.y => ⟨0, 1, 0⟩
  | Axis.z => ⟨0, 0, 1⟩

/-- Component of a world vector along a named axis. -/
def compQ (v : Vec3Q) : Axis → ℚ
  | Axis.x => v.x
  | Axis.y => v.y
  | Axis.z => v.z

/-- JavaScript `Math.round`: round half toward positive infinity. -/
def jsRound (q : ℚ) : ℤ := ⌊q + 1/2⌋

/-- The gesture resolver of `src/components/Cube.jsx` (`onMouseMove`,
lines 88-177), for one drag sample of an active gesture: the dead-zone check
(line 96), the candidate-axis scan, the 0.5 confidence gate (line 135), and the
move construction (lines 137-170).  Returns the emitted move, or `none` when
the sample decides nothing. -/
def resolveMoveJsx (n : Vec3Q) (proj : Vec3Q → Vec2Q) (point objPos : Vec3Q)
    (dx dy : ℚ) : Option Move :=
  if |dx| < 2 ∧ |dy| < 2 then none
  else
    let a : Vec2Q := ⟨dx, -dy⟩
    let best := bestCandidate n proj point a
    if best.2 > 1/4 then
      match best.1 with
      | none => none
      | some u =>
        let rotAxisName := domAxisName (crossQ u n)
        let layerCoord := jsRound (compQ objPos rotAxisName)
        let directionSign : ℤ :=
          if dot2 a (screenDir proj point u) > 0 then 1 else -1
        let rotDir : ℤ :=
          if dot3 (crossQ n u) (unitQ rotAxisName) < 0 then -directionSign
          else directionSign
        some ⟨rotAxisName, layerCoord, rotDir⟩
    else none

/-- The gesture resolver of `backup/control.js` (`onMouseMove`, lines 96-288).
It is the same pipeline with one extra guard: the current mouse position is
raycast against the cube again (`getIntersect(event)`, line 99) and the sample
is discarded when the ray misses (line 113), before the dead-zone check.  The
presence of that hit is the extra input `hit`; the unused locals of the source
(`moveX`, `axisName`, `layerIndex`) have no observable effect and are elided. -/
def resolveMoveControl (hit : Bool) (n : Vec3Q) (proj : Vec3Q → Vec2Q)
    (point objPos : Vec3Q) (dx dy : ℚ) : Option Move :=
  if hit = false then none
  else if |dx| < 2 ∧ |dy| < 2 then none
  else
    let a : Vec2Q := ⟨dx, -dy⟩
    let best := bestCandidate n proj point a
    if best.2 > 1/4 then
      match best.1 with
      | none => none
      | some u =>
        let rotAxisName := domAxisName (crossQ u n)
        let layerCoord := jsRound (compQ objPos rotAxisName)
        let directionSign : ℤ :=
          if dot2 a (screenDir proj point u) > 0 then 1 else -1
        let rotDir : ℤ :=
          if dot3 (crossQ n u) (unitQ rotAxisName) < 0 then -directionSign
          else directionSign
        some ⟨rotAxisName, layerCoord, rotDir⟩
    else none

/-- One pointer-movement sample of a gesture: the pixel deltas. -/
structure Sample where
  dx : ℚ
  dy : ℚ
deriving DecidableEq

/-- The move emitted by a whole gesture (pointer-down with a fixed pick,
a stream of drag samples, then pointer-up): samples are processed in order and
the first decision wins, since emission resets the drag state (lines 172-174)
so later samples of the gesture are ignored; if no sample decides, the gesture
ends with no move. -/
def gestureEmit (n : Vec3Q) (proj : Vec3Q → Vec2Q) (point objPos : Vec3Q)
    (samples : List Sample) : Option Move :=
  samples.foldl
    (fun acc smp =>
      match acc with
      | some m => some m
      | none => resolveMoveJsx n proj point objPos smp.dx smp.dy)
    none

/-! ## The pivot angle (`targetRotation`, line 81) -/

/-- The pivot target angle of `rotateLayer`:
`(Math.PI / 2) * direction * -1` (line 81), in radians, right-hand rule about
the positive named axis (the Three.js Euler convention). -/
noncomputable def targetRotation (direction : ℤ) : ℝ :=
  Real.pi / 2 * direction * (-1)

/-- Rotation of a real vector by angle `t` about a named axis, right-hand rule
about the positive axis: the meaning of setting the Three.js Euler component
`pivot.rotation[axis] = t`. -/
noncomputable def rotAngle (a : Axis) (t : ℝ) : ℝ × ℝ × ℝ → ℝ × ℝ × ℝ
  | (px, py, pz) =>
    match a with
    | Axis.x => (px, py * Real.cos t - pz * Real.sin t,
                 py * Real.sin t + pz * Real.cos t)
    | Axis.y => (px * Real.cos t + pz * Real.sin t, py,
                 -px * Real.sin t + pz * Real.cos t)
    | Axis.z => (px * Real.cos t - py * Real.sin t,
                 px * Real.sin t + py * Real.cos t, pz)

/-- Embedding of exact grid vectors into real space. -/
noncomputable def toR3 (v : Vec3) : ℝ × ℝ × ℝ := ((v.x : ℝ), (v.y : ℝ), (v.z : ℝ))

/-! ## Helper lemmas -/

lemma rotQ_four (a : Axis) (v : Vec3) : (rotQ a)^[4] v = v := by
  cases a <;> cases v <;>
    simp [rotQ, Function.iterate_succ_apply, Function.iterate_zero_apply]

lemma rotQ_four_pow (a : Axis) (k : ℕ) (v : Vec3) : ((rotQ a)^[4])^[k] v = v := by
  induction k generalizing v with
  | zero => rfl
  | succ k ih => rw [Function.iterate_succ_apply, rotQ_four, ih]

lemma turnMap_four (a : Axis) (d : ℤ) (v : Vec3) :
    turnMap a d (turnMap a d (turnMap a d (turnMap a d v))) = v := by
  unfold turnMap
  rw [← Function.iterate_add_apply, ← Function.iterate_add_apply,
    ← Function.iterate_add_apply]
  have h4 : ((-d) % 4).toNat + ((-d) % 4).toNat + ((-d) % 4).toNat
      + ((-d) % 4).toNat = 4 * ((-d) % 4).toNat := by ring
  rw [h4, Function.iterate_mul, rotQ_four_pow]

lemma axisComp_rotQ (a : Axis) (v : Vec3) : axisComp (rotQ a v) a = axisComp v a := by
  cases a <;> rfl

lemma axisComp_rotQ_iterate (a : Axis) (n : ℕ) (v : Vec3) :
    axisComp ((rotQ a)^[n] v) a = axisComp v a := by
  induction n generalizing v with
  | zero => rfl
  | succ n ih => rw [Function.iterate_succ_apply, ih, axisComp_rotQ]

lemma axisComp_turnMap (a : Axis) (d : ℤ) (v : Vec3) :
    axisComp (turnMap a d v) a = axisComp v a :=
  axisComp_rotQ_iterate a _ v

lemma layerTurn_pos (a : Axis) (i d : ℤ) (c : Cubie) :
    (layerTurn a i d c).pos
      = if axisComp c.pos a == i then turnMap a d c.pos else c.pos := by
  by_cases h : (axisComp c.pos a == i) = true <;> simp [layerTurn, applyTurn, h]

lemma layerTurn_four (a : Axis) (i d : ℤ) (c : Cubie) :
    layerTurn a i d (layerTurn a i d (layerTurn a i d (layerTurn a i d c))) = c := by
  by_cases h : (axisComp c.pos a == i) = true
  · obtain ⟨p, e1, e2, e3⟩ := c
    simp only [layerTurn, applyTurn, h, if_true, axisComp_turnMap]
    simp [turnMap_four]
  · simp [layerTurn, h]

lemma posList_finishRotation (s : CubeState) (a : Axis) (i d : ℤ) :
    posList (finishRotation s a i d)
      = (posList s).map fun v => if axisComp v a == i then turnMap a d v else v := by
  simp only [posList, finishRotation, List.map_map]
  exact List.map_congr_left fun c _ => layerTurn_pos a i d c

lemma rotateLayer_idle (s : CubeState) (a : Axis) (i d : ℤ)
    (h : s.isAnimating = false) :
    rotateLayer s a i d = finishRotation s a i d := by
  obtain ⟨cs, flag⟩ := s
  simp only at h
  subst h
  simp only [rotateLayer, if_neg Bool.false_ne_true]
  by_cases he : (activeCubies ⟨cs, false⟩ a i).length = 0
  · simp only [he, if_true]
    have hmap : cs.map (layerTurn a i d) = cs := by
      conv_rhs => rw [← List.map_id cs]
      apply List.map_congr_left
      intro c hc
      have hnc := List.filter_eq_nil_iff.mp (List.length_eq_zero.mp he) c hc
      simp only [Bool.not_eq_true] at hnc
      simp [layerTurn, hnc]
    simp [finishRotation, hmap]
  · simp [he]

lemma allPos_axisComp (a : Axis) :
    ∀ v ∈ allPos, axisComp v a = -1 ∨ axisComp v a = 0 ∨ axisComp v a = 1 := by
  cases a <;> decide

lemma map_layerPos_perm_k (a : Axis) (i : ℤ) (hi : i = -1 ∨ i = 0 ∨ i = 1)
    (k : ℕ) (hk : k < 4) :
    (allPos.map fun v => if axisComp v a == i then (rotQ a)^[k] v else v).Perm
      allPos := by
  cases a <;> rcases hi with rfl | rfl | rfl <;> interval_cases k <;> decide

lemma map_layerPos_perm (a : Axis) (i d : ℤ) (hi : i = -1 ∨ i = 0 ∨ i = 1) :
    (allPos.map fun v => if axisComp v a == i then turnMap a d v else v).Perm
      allPos := by
  have h1 : (0 : ℤ) ≤ (-d) % 4 := Int.emod_nonneg _ (by norm_num)
  have h2 : (-d) % 4 < 4 := Int.emod_lt_of_pos _ (by norm_num)
  have hk : ((-d) % 4).toNat < 4 := by omega
  exact map_layerPos_perm_k a i hi _ hk

lemma map_layerPos_id (a : Axis) (i d : ℤ) (hi : ¬(i = -1 ∨ i = 0 ∨ i = 1)) :
    (allPos.map fun v => if axisComp v a == i then turnMap a d v else v)
      = allPos := by
  conv_rhs => rw [← List.map_id allPos]
  apply List.map_congr_left
  intro v hv
  have h := allPos_axisComp a v hv
  have hne : axisComp v a ≠ i := by rcases h with h|h|h <;> rw [h] <;> omega
  simp [hne]

/-- The state invariant: the position multiset is exactly the 27 grid points
(in particular valid and pairwise distinct), and the engine is idle. -/
def GoodState (s : CubeState) : Prop :=
  (posList s).Perm allPos ∧ s.isAnimating = false

lemma goodState_init : GoodState initState := by
  constructor
  · simp [posList, initState, List.map_map]
    exact List.Perm.refl _
  · rfl

lemma goodState_rotateLayer (s : CubeState) (a : Axis) (i d : ℤ)
    (h : GoodState s) : GoodState (rotateLayer s a i d) := by
  rw [rotateLayer_idle s a i d h.2]
  refine ⟨?_, rfl⟩
  rw [posList_finishRotation]
  refine List.Perm.trans (h.1.map _) ?_
  by_cases hi : i = -1 ∨ i = 0 ∨ i = 1
  · exact map_layerPos_perm a i d hi
  · rw [map_layerPos_id a i d hi]

lemma goodState_applyMoves (ms : List Move) (s : CubeState) (h : GoodState s) :
    GoodState (applyMoves s ms) := by
  induction ms generalizing s with
  | nil => exact h
  | cons m ms ih =>
    exact ih _ (goodState_rotateLayer s m.axis m.index m.direction h)

lemma goodState_reachable (ms : List Move) : GoodState (applyMoves initState ms) :=
  goodState_applyMoves ms initState goodState_init

lemma posList_init : posList initState = allPos := by
  simp [posList, initState, List.map_map, Function.comp_def]

lemma allPos_valid : ∀ v ∈ allPos,
    (v.x = -1 ∨ v.x = 0 ∨ v.x = 1) ∧ (v.y = -1 ∨ v.y = 0 ∨ v.y = 1)
      ∧ (v.z = -1 ∨ v.z = 0 ∨ v.z = 1) := by
  decide

lemma allPos_nodup : allPos.Nodup := by decide

lemma turnMap_inv_one (a : Axis) (v : Vec3) :
    turnMap a (-1) (turnMap a 1 v) = v := by
  unfold turnMap
  norm_num
  rw [show Int.toNat 3 = 3 from rfl,
    show rotQ a ((rotQ a)^[3] v) = (rotQ a)^[4] v from
      (Function.iterate_succ_apply' (rotQ a) 3 v).symm]
  exact rotQ_four a v

lemma layerTurn_inv_one (a : Axis) (i : ℤ) (c : Cubie) :
    layerTurn a i (-1) (layerTurn a i 1 c) = c := by
  by_cases h : (axisComp c.pos a == i) = true
  · obtain ⟨p, e1, e2, e3⟩ := c
    simp only [layerTurn, applyTurn, h, if_true, axisComp_turnMap]
    simp [turnMap_inv_one]
  · simp [layerTurn, h]

lemma resolveMoveJsx_none_of_low_score (n : Vec3Q) (proj : Vec3Q → Vec2Q)
    (point objPos : Vec3Q) (dx dy : ℚ)
    (h : winningScoreSq n proj point dx dy ≤ 1/4) :
    resolveMoveJsx n proj point objPos dx dy = none := by
  unfold resolveMoveJsx
  by_cases hd : |dx| < 2 ∧ |dy| < 2
  · simp [hd]
  · have hgate : ¬((bestCandidate n proj point ⟨dx, -dy⟩).2 > 1/4) :=
      not_lt.mpr h
    simp only [hd, if_false]
    simp [hd]
    intro hlt
    exact absurd hlt (by simpa using hgate)

lemma gestureEmit_none (n : Vec3Q) (proj : Vec3Q → Vec2Q)
    (point objPos : Vec3Q) (samples : List Sample)
    (h : ∀ smp ∈ samples, resolveMoveJsx n proj point objPos smp.dx smp.dy = none) :
    gestureEmit n proj point objPos samples = none := by
  induction samples with
  | nil => rfl
  | cons smp rest ih =>
    unfold gestureEmit
    rw [List.foldl_cons]
    have h0 := h smp (List.mem_cons_self _ _)
    show List.foldl _ (match (none : Option Move) with
      | some m => some m
      | none => resolveMoveJsx n proj point objPos smp.dx smp.dy) rest = none
    rw [h0]
    exact ih fun s hs => h s (List.mem_cons_of_mem _ hs)

/-! ## Concrete fixtures used by counterexamples and witnesses -/

/-- The solved cubie configuration with the busy flag raised, as it is during
an in-flight animated turn. -/
def busyInit : CubeState := ⟨initState.cubies, true⟩

/-- A concrete camera projection dropping the depth coordinate. -/
def proj0 : Vec3Q → Vec2Q := fun v => ⟨v.x, v.y⟩

/-- A pick on the front face: world face normal (0,0,1). -/
def n0 : Vec3Q := ⟨0, 0, 1⟩

/-- The world intersection point of the concrete pick. -/
def point0 : Vec3Q := ⟨0, 0, 1⟩

/-- The position of the touched cubie of the concrete pick. -/
def objPos0 : Vec3Q := ⟨1, 1, 1⟩

/-- A degenerate projection collapsing everything to one screen point, making
every candidate screen direction zero and every alignment score zero. -/
def projZero : Vec3Q → Vec2Q := fun _ => ⟨0, 0⟩

/-! ## Claims -/

/-- C1, counterexample.  The claim says an instant (`animate = false`)
`rotateLayer` call issued while the engine is busy executes and mutates the
cubie state, the busy lock being checked only on the animated path.  In the
code the busy check (`if (this.isAnimating) return;`, line 64) precedes the
`animate` branch, so the instant call is dropped: on the busy solved state the
call returns the state unchanged, although executing the turn would have
changed the cubie positions. -/
theorem c1_instant_while_busy_counterexample :
    rotateLayerStart busyInit Axis.x 1 1 false = busyInit
      ∧ (finishRotation busyInit Axis.x 1 1).cubies ≠ busyInit.cubies := by
  constructor
  · rfl
  · decide

/-- C1, amended.  Any `rotateLayer` call received while the engine is busy is
silently dropped, whether animated or instant; an instant call issued while
idle executes synchronously within the call (its return state is already the
committed state) and never sets the busy flag. -/
theorem c1_busy_lock_and_instant_path :
    (∀ (s : CubeState) (a : Axis) (i d : ℤ) (animate : Bool),
        s.isAnimating = true → rotateLayerStart s a i d animate = s)
      ∧ (∀ (s : CubeState) (a : Axis) (i d : ℤ), s.isAnimating = false →
          rotateLayerStart s a i d false = rotateLayer s a i d
            ∧ (rotateLayerStart s a i d false).isAnimating = false) := by
  constructor
  · intro s a i d animate h
    simp [rotateLayerStart, h]
  · intro s a i d h
    constructor
    · simp [rotateLayerStart, rotateLayer, h]
    · by_cases he : (activeCubies s a i).length = 0 <;>
        simp [rotateLayerStart, h, he, finishRotation]

/-- C1, witness for the amended theorem at concrete inputs. -/
theorem c1_busy_lock_and_instant_path_witness :
    rotateLayerStart busyInit Axis.y 0 1 true = busyInit
      ∧ (rotateLayerStart initState Axis.x 1 1 false
            = rotateLayer initState Axis.x 1 1
          ∧ (rotateLayerStart initState Axis.x 1 1 false).isAnimating = false) :=
  ⟨c1_busy_lock_and_instant_path.1 busyInit Axis.y 0 1 true rfl,
   c1_busy_lock_and_instant_path.2 initState Axis.x 1 1 rfl⟩

/-- C2, counterexample.  The claim says the pivot rotation is 90 degrees times
`direction` with `direction = +1` the right-hand-rule rotation about the
positive named axis.  The code computes
`targetRotation = (Math.PI / 2) * direction * -1` (line 81), so for
`direction = 1` the angle is minus a quarter turn, not plus. -/
theorem c2_rotation_sign_counterexample :
    targetRotation 1 ≠ Real.pi / 2 * 1 := by
  unfold targetRotation
  intro h
  nlinarith [Real.pi_pos]

/-- C2, amended.  The pivot rotation applied by `rotateLayer` is
`-(90 degrees) * direction` about the named axis: `direction = +1` is the
clockwise (negative, right-hand-rule) quarter turn about the positive axis.
Accordingly, on exact grid data the rotation by `targetRotation direction`
for `direction = 1` acts as three right-hand-rule quarter turns (`turnMap`)
and for `direction = -1` as one. -/
theorem c2_pivot_rotation_is_minus_quarter :
    (∀ d : ℤ, targetRotation d = -(Real.pi / 2 * d))
      ∧ (∀ (a : Axis) (v : Vec3),
          rotAngle a (targetRotation 1) (toR3 v) = toR3 (turnMap a 1 v))
      ∧ (∀ (a : Axis) (v : Vec3),
          rotAngle a (targetRotation (-1)) (toR3 v) = toR3 (turnMap a (-1) v)) := by
  refine ⟨?_, ?_, ?_⟩
  · intro d
    unfold targetRotation
    ring
  · intro a v
    have ht : targetRotation 1 = -(Real.pi / 2) := by
      unfold targetRotation
      push_cast
      ring
    have hk : ((-(1 : ℤ)) % 4).toNat = 3 := by decide
    obtain ⟨vx, vy, vz⟩ := v
    cases a <;>
      simp [rotAngle, toR3, turnMap, hk, Function.iterate_succ_apply',
        rotQ, ht, Real.cos_pi_div_two, Real.sin_pi_div_two]
  · intro a v
    have ht : targetRotation (-1) = Real.pi / 2 := by
      unfold targetRotation
      push_cast
      ring
    have hk : ((-(-1 : ℤ)) % 4).toNat = 1 := by decide
    obtain ⟨vx, vy, vz⟩ := v
    cases a <;>
      simp [rotAngle, toR3, turnMap, hk, Function.iterate_succ_apply',
        rotQ, ht, Real.cos_pi_div_two, Real.sin_pi_div_two]

/-- C3.  Starting from the solved state, after any finite sequence of
completed `rotateLayer` calls the cubie position list is a permutation of the
initial one; every position has all three components in {-1,0,1}; the 27
positions are pairwise distinct; and each further completed turn again
permutes the positions. -/
theorem c3_positions_are_permutation (ms : List Move) :
    (posList (applyMoves initState ms)).Perm (posList initState)
      ∧ (∀ v ∈ posList (applyMoves initState ms),
          (v.x = -1 ∨ v.x = 0 ∨ v.x = 1) ∧ (v.y = -1 ∨ v.y = 0 ∨ v.y = 1)
            ∧ (v.z = -1 ∨ v.z = 0 ∨ v.z = 1))
      ∧ (posList (applyMoves initState ms)).Nodup
      ∧ ∀ m : Move, (posList (applyMove (applyMoves initState ms) m)).Perm
          (posList (applyMoves initState ms)) := by
  obtain ⟨hp, hidle⟩ := goodState_reachable ms
  refine ⟨?_, ?_, ?_, ?_⟩
  · rw [posList_init]
    exact hp
  · intro v hv
    exact allPos_valid v (hp.mem_iff.mp hv)
  · exact (hp.nodup_iff).mpr allPos_nodup
  · intro m
    have h2 := (goodState_rotateLayer _ m.axis m.index m.direction
      ⟨hp, hidle⟩).1
    exact h2.trans hp.symm

/-- C3, witness: the theorem applied at the empty move sequence and the
concrete position (1,1,1). -/
theorem c3_positions_are_permutation_witness :
    (⟨1, 1, 1⟩ : Vec3) ∈ posList (applyMoves initState [])
      ∧ (((1 : ℤ) = -1 ∨ (1 : ℤ) = 0 ∨ (1 : ℤ) = 1)
          ∧ ((1 : ℤ) = -1 ∨ (1 : ℤ) = 0 ∨ (1 : ℤ) = 1)
          ∧ ((1 : ℤ) = -1 ∨ (1 : ℤ) = 0 ∨ (1 : ℤ) = 1)) :=
  ⟨by decide, (c3_positions_are_permutation []).2.1 ⟨1, 1, 1⟩ (by decide)⟩

/-- C5.  In any at-rest state reachable by completed turns, for every axis and
every layer index in {-1,0,1} the layer selection contains exactly 9 cubies;
layers of the same axis at different indices are disjoint; and the three
layers along one axis jointly cover all 27 cubies. -/
theorem c5_layer_selection_partition (ms : List Move) (a : Axis) (i : ℤ)
    (hi : i = -1 ∨ i = 0 ∨ i = 1) :
    (activeCubies (applyMoves initState ms) a i).length = 9
      ∧ (∀ j : ℤ, j ≠ i → ∀ c ∈ activeCubies (applyMoves initState ms) a i,
          c ∉ activeCubies (applyMoves initState ms) a j)
      ∧ (∀ c ∈ (applyMoves initState ms).cubies,
          c ∈ activeCubies (applyMoves initState ms) a (-1)
            ∨ c ∈ activeCubies (applyMoves initState ms) a 0
            ∨ c ∈ activeCubies (applyMoves initState ms) a 1) := by
  obtain ⟨hp, hidle⟩ := goodState_reachable ms
  refine ⟨?_, ?_, ?_⟩
  · have hlen : (activeCubies (applyMoves initState ms) a i).length
        = List.countP (fun v => axisComp v a == i)
            (posList (applyMoves initState ms)) := by
      unfold activeCubies posList
      rw [← List.countP_eq_length_filter, List.countP_map]
      rfl
    rw [hlen, hp.countP_eq]
    rcases hi with rfl | rfl | rfl <;> cases a <;> decide
  · intro j hj c hc hcj
    have h1 := (List.mem_filter.mp hc).2
    have h2 := (List.mem_filter.mp hcj).2
    rw [beq_iff_eq] at h1 h2
    exact hj (h2.symm.trans h1)
  · intro c hc
    have hv : c.pos ∈ allPos :=
      hp.mem_iff.mp (List.mem_map_of_mem (fun c => c.pos) hc)
    rcases allPos_axisComp a c.pos hv with h | h | h
    · exact Or.inl (List.mem_filter.mpr ⟨hc, by rw [beq_iff_eq]; exact h⟩)
    · exact Or.inr (Or.inl (List.mem_filter.mpr ⟨hc, by rw [beq_iff_eq]; exact h⟩))
    · exact Or.inr (Or.inr (List.mem_filter.mpr ⟨hc, by rw [beq_iff_eq]; exact h⟩))

/-- C5, witness: the theorem applied at the empty move sequence, axis x,
layer index 0, and the cubie at the origin for the coverage clause. -/
theorem c5_layer_selection_partition_witness :
    ((0 : ℤ) = -1 ∨ (0 : ℤ) = 0 ∨ (0 : ℤ) = 1)
      ∧ (activeCubies (applyMoves initState []) Axis.x 0).length = 9 :=
  ⟨by decide, (c5_layer_selection_partition [] Axis.x 0 (by decide)).1⟩

lemma rotateLayer_mk (cs : List Cubie) (a : Axis) (i d : ℤ) :
    rotateLayer ⟨cs, false⟩ a i d = ⟨cs.map (layerTurn a i d), false⟩ :=
  rotateLayer_idle ⟨cs, false⟩ a i d rfl

/-- C6.  From any at-rest state, four consecutive
`rotateLayer(axis, layerIndex, direction, animate=false)` calls with the same
arguments restore the whole state: every cubie (in particular every cubie of
the turned layer) returns to its original position and orientation. -/
theorem c6_quarter_turn_period_four (s : CubeState) (a : Axis) (i d : ℤ)
    (h : s.isAnimating = false) :
    rotateLayer (rotateLayer (rotateLayer (rotateLayer s a i d) a i d) a i d)
      a i d = s := by
  obtain ⟨cs, flag⟩ := s
  simp only at h
  subst h
  rw [rotateLayer_mk, rotateLayer_mk, rotateLayer_mk, rotateLayer_mk]
  simp only [List.map_map]
  rw [CubeState.mk.injEq]
  refine ⟨?_, rfl⟩
  conv_rhs => rw [← List.map_id cs]
  apply List.map_congr_left
  intro c _
  exact layerTurn_four a i d c

/-- C6, witness: four identical quarter turns of the x = 1 layer on the solved
state restore it. -/
theorem c6_quarter_turn_period_four_witness :
    rotateLayer (rotateLayer (rotateLayer (rotateLayer initState Axis.x 1 1)
      Axis.x 1 1) Axis.x 1 1) Axis.x 1 1 = initState :=
  c6_quarter_turn_period_four initState Axis.x 1 1 rfl

/-- C7.  From any at-rest state, `rotateLayer('x', 1, +1, animate=false)`
followed by `rotateLayer('x', 1, -1, animate=false)` leaves every cubie
position and orientation identical to the starting state. -/
theorem c7_turn_then_inverse_identity (s : CubeState)
    (h : s.isAnimating = false) :
    rotateLayer (rotateLayer s Axis.x 1 1) Axis.x 1 (-1) = s := by
  obtain ⟨cs, flag⟩ := s
  simp only at h
  subst h
  rw [rotateLayer_mk, rotateLayer_mk]
  simp only [List.map_map]
  rw [CubeState.mk.injEq]
  refine ⟨?_, rfl⟩
  conv_rhs => rw [← List.map_id cs]
  apply List.map_congr_left
  intro c _
  exact layerTurn_inv_one Axis.x 1 c

/-- C7, witness: the theorem applied to the solved state. -/
theorem c7_turn_then_inverse_identity_witness :
    rotateLayer (rotateLayer initState Axis.x 1 1) Axis.x 1 (-1) = initState :=
  c7_turn_then_inverse_identity initState rfl

/-- C8.  A `rotateLayer` call whose layer index is outside {-1,0,1} selects no
cubies and changes nothing in any state reachable by completed turns, and a
`rotateLayer` call received while the engine is mid-animation changes nothing,
whether animated or instant; both are total silent no-ops (the embedding is a
total function, no error is raised). -/
theorem c8_out_of_range_and_busy_noops :
    (∀ (ms : List Move) (a : Axis) (i d : ℤ) (animate : Bool),
        ¬(i = -1 ∨ i = 0 ∨ i = 1) →
          rotateLayerStart (applyMoves initState ms) a i d animate
            = applyMoves initState ms)
      ∧ (∀ (s : CubeState) (a : Axis) (i d : ℤ) (animate : Bool),
          s.isAnimating = true → rotateLayerStart s a i d animate = s) := by
  constructor
  · intro ms a i d animate hi
    obtain ⟨hp, hidle⟩ := goodState_reachable ms
    have hempty : activeCubies (applyMoves initState ms) a i = [] := by
      unfold activeCubies
      rw [List.filter_eq_nil_iff]
      intro c hc
      have hv : c.pos ∈ allPos :=
        hp.mem_iff.mp (List.mem_map_of_mem (fun c => c.pos) hc)
      have h := allPos_axisComp a c.pos hv
      have hne : axisComp c.pos a ≠ i := by
        rcases h with h | h | h <;> rw [h] <;> intro hh <;>
          exact hi (by omega)
      simp [hne]
    simp [rotateLayerStart, hidle, hempty]
  · intro s a i d animate h
    simp [rotateLayerStart, h]

/-- C8, witness: layer index 5 on the solved state, and a busy state. -/
theorem c8_out_of_range_and_busy_noops_witness :
    (¬((5 : ℤ) = -1 ∨ (5 : ℤ) = 0 ∨ (5 : ℤ) = 1)
        ∧ rotateLayerStart (applyMoves initState []) Axis.x 5 1 false
            = applyMoves initState [])
      ∧ rotateLayerStart busyInit Axis.z 1 (-1) true = busyInit :=
  ⟨⟨by decide, c8_out_of_range_and_busy_noops.1 [] Axis.x 5 1 false (by decide)⟩,
   c8_out_of_range_and_busy_noops.2 busyInit Axis.z 1 (-1) true rfl⟩

/-- C9.  On each drag sample whose winning alignment score is at most 0.5
(i.e. whose squared winning score is at most 1/4) the resolver decides nothing
and emits nothing, and if no sample of the gesture has winning score above the
threshold, the whole gesture ends with no move emitted (and, the embedding
being a total function, no error). -/
theorem c9_confidence_gate (n : Vec3Q) (proj : Vec3Q → Vec2Q)
    (point objPos : Vec3Q) (samples : List Sample)
    (h : ∀ smp ∈ samples, winningScoreSq n proj point smp.dx smp.dy ≤ 1/4) :
    (∀ smp ∈ samples,
        resolveMoveJsx n proj point objPos smp.dx smp.dy = none)
      ∧ gestureEmit n proj point objPos samples = none := by
  have hall : ∀ smp ∈ samples,
      resolveMoveJsx n proj point objPos smp.dx smp.dy = none :=
    fun smp hs =>
      resolveMoveJsx_none_of_low_score n proj point objPos smp.dx smp.dy
        (h smp hs)
  exact ⟨hall, gestureEmit_none n proj point objPos samples hall⟩

/-- C9, witness: under the degenerate projection every candidate screen
direction is zero, every winning score is zero, and a one-sample gesture emits
nothing. -/
theorem c9_confidence_gate_witness :
    (∀ smp ∈ [(⟨5, 0⟩ : Sample)],
        winningScoreSq n0 projZero point0 smp.dx smp.dy ≤ 1/4)
      ∧ gestureEmit n0 projZero point0 objPos0 [⟨5, 0⟩] = none := by
  have hscore : ∀ smp ∈ [(⟨5, 0⟩ : Sample)],
      winningScoreSq n0 projZero point0 smp.dx smp.dy ≤ 1/4 := by
    intro smp hs
    rw [List.mem_singleton] at hs
    subst hs
    norm_num [winningScoreSq, bestCandidate, scanStep, candidateAxes, scoreSq,
      screenDir, projZero, point0, n0, addQ, dot2, normSq2]
  exact ⟨hscore,
    (c9_confidence_gate n0 projZero point0 objPos0 [⟨5, 0⟩] hscore).2⟩

/-- C4, counterexample.  The claim says a drag at exactly 45 degrees to both
candidate screen directions emits no move.  Concretely: for a pick on the
front face (normal (0,0,1)) under a projection that drops depth, the candidate
screen directions are (1,0) and (0,1), and the drag sample (dx,dy) = (2,-2)
(screen drag vector (2,2)) is at exactly 45 degrees to both (its squared
cosine to each is 1/2 with positive dot product).  The winning score is
cos 45 > 0.5, so the resolver emits the move (y, 1, +1). -/
theorem c4_forty_five_degrees_counterexample :
    candidateAxes n0 = (⟨1, 0, 0⟩, ⟨0, 1, 0⟩)
      ∧ scoreSq ⟨2, 2⟩ (screenDir proj0 point0 ⟨1, 0, 0⟩) = 1/2
      ∧ scoreSq ⟨2, 2⟩ (screenDir proj0 point0 ⟨0, 1, 0⟩) = 1/2
      ∧ dot2 ⟨2, 2⟩ (screenDir proj0 point0 ⟨1, 0, 0⟩) > 0
      ∧ dot2 ⟨2, 2⟩ (screenDir proj0 point0 ⟨0, 1, 0⟩) > 0
      ∧ resolveMoveJsx n0 proj0 point0 objPos0 2 (-2)
          = some ⟨Axis.y, 1, 1⟩ := by
  refine ⟨?_, ?_, ?_, ?_, ?_, ?_⟩
  · norm_num [candidateAxes, n0]
  · norm_num [scoreSq, screenDir, proj0, point0, addQ, dot2, normSq2]
  · norm_num [scoreSq, screenDir, proj0, point0, addQ, dot2, normSq2]
  · norm_num [dot2, screenDir, proj0, point0, addQ]
  · norm_num [dot2, screenDir, proj0, point0, addQ]
  · norm_num [resolveMoveJsx, bestCandidate, scanStep, candidateAxes, scoreSq,
      screenDir, proj0, point0, n0, objPos0, addQ, dot2, dot3, normSq2, normSq3,
      crossQ, domAxisName, unitQ, compQ, jsRound]

/-- C4, amended.  A drag at exactly 45 degrees to both candidate screen
directions (both squared alignment scores equal to 1/2) that passes the 2px
dead-zone does emit a move: the winning score cos 45 exceeds the 0.5
confidence threshold and the tie goes to the first candidate axis. -/
theorem c4_forty_five_degrees_emits (n : Vec3Q) (proj : Vec3Q → Vec2Q)
    (point objPos : Vec3Q) (dx dy : ℚ)
    (hdz : ¬(|dx| < 2 ∧ |dy| < 2))
    (h1 : scoreSq ⟨dx, -dy⟩ (screenDir proj point (candidateAxes n).1) = 1/2)
    (h2 : scoreSq ⟨dx, -dy⟩ (screenDir proj point (candidateAxes n).2) = 1/2) :
    (resolveMoveJsx n proj point objPos dx dy).isSome = true := by
  have hbest : bestCandidate n proj point ⟨dx, -dy⟩
      = (some (candidateAxes n).1, 1/2) := by
    unfold bestCandidate
    rw [List.foldl_cons, List.foldl_cons, List.foldl_nil]
    unfold scanStep
    rw [h1, h2]
    norm_num
  simp only [resolveMoveJsx, hbest]
  rw [if_neg hdz]
  norm_num

/-- C4, witness for the amended theorem: the concrete 45-degree drag of the
counterexample setting, at which the resolver emits a move. -/
theorem c4_forty_five_degrees_emits_witness :
    (¬(|(2 : ℚ)| < 2 ∧ |(-2 : ℚ)| < 2)
        ∧ scoreSq ⟨2, -(-2)⟩ (screenDir proj0 point0 (candidateAxes n0).1) = 1/2
        ∧ scoreSq ⟨2, -(-2)⟩ (screenDir proj0 point0 (candidateAxes n0).2) = 1/2)
      ∧ (resolveMoveJsx n0 proj0 point0 objPos0 2 (-2)).isSome = true := by
  have hdz : ¬(|(2 : ℚ)| < 2 ∧ |(-2 : ℚ)| < 2) := by norm_num
  have h1 : scoreSq ⟨2, -(-2)⟩ (screenDir proj0 point0 (candidateAxes n0).1)
      = 1/2 := by
    norm_num [scoreSq, screenDir, proj0, point0, n0, candidateAxes, addQ, dot2,
      normSq2]
  have h2 : scoreSq ⟨2, -(-2)⟩ (screenDir proj0 point0 (candidateAxes n0).2)
      = 1/2 := by
    norm_num [scoreSq, screenDir, proj0, point0, n0, candidateAxes, addQ, dot2,
      normSq2]
  exact ⟨⟨hdz, h1, h2⟩,
    c4_forty_five_degrees_emits n0 proj0 point0 objPos0 2 (-2) hdz h1 h2⟩

/-- C10, counterexample.  The claim says the two resolver copies agree on
every input built from the listed pick data.  The `backup/control.js` copy
additionally raycasts the current pointer position against the cube and
discards the sample when the ray misses, an input outside the listed pick
data; on the same listed inputs, with the current ray missing, the backup
resolver declines while the `Cube.jsx` resolver emits a move. -/
theorem c10_resolvers_disagree_counterexample :
    resolveMoveControl false n0 proj0 point0 objPos0 2 (-2) = none
      ∧ resolveMoveJsx n0 proj0 point0 objPos0 2 (-2)
          = some ⟨Axis.y, 1, 1⟩ := by
  refine ⟨rfl, ?_⟩
  norm_num [resolveMoveJsx, bestCandidate, scanStep, candidateAxes, scoreSq,
    screenDir, proj0, point0, n0, objPos0, addQ, dot2, dot3, normSq2, normSq3,
    crossQ, domAxisName, unitQ, compQ, jsRound]

/-- C10, amended.  Whenever the extra guard of `backup/control.js` passes
(the current pointer ray still hits the cube), the two resolvers compute the
same result on identical inputs: the same move, or both decline. -/
theorem c10_resolvers_agree_when_hit (hit : Bool) (n : Vec3Q)
    (proj : Vec3Q → Vec2Q) (point objPos : Vec3Q) (dx dy : ℚ)
    (h : hit = true) :
    resolveMoveControl hit n proj point objPos dx dy
      = resolveMoveJsx n proj point objPos dx dy := by
  subst h
  rfl

/-- C10, witness: the two resolvers agree at the concrete pick of the
counterexample once the current ray hits. -/
theorem c10_resolvers_agree_when_hit_witness :
    resolveMoveControl true n0 proj0 point0 objPos0 2 (-2)
      = resolveMoveJsx n0 proj0 point0 objPos0 2 (-2) :=
  c10_resolvers_agree_when_hit true n0 proj0 point0 objPos0 2 (-2) rfl

end Cube3D
